import Mathlib

/-!
Verification development for the BananaCoin market simulation backend.

The Python sources are shallowly embedded here:
* `src/back-end/market.py` — `Market.__init__`, `Market.updateMarket`,
  `Market._trigger_event` (price formation over supply reserves, the
  scheduled shock event, the price history);
* `src/back-end/bot.py` — `Bot.buy`, `Bot.sell`, `Bot._scale_trade_amount`,
  `Bot.analyze` and the per-strategy decision functions, and the
  behavior-coefficient derivation in `Bot.__init__`;
* `src/back-end/user.py` — `User.buy_bc`, `User.sell_bc`.

Python floats are modelled by `ℚ` (exact arithmetic; the code relies on no
float-specific behaviour for the verified properties).  Calls to the process
random generator are modelled by oracle parameters carrying the drawn values:
`random.random()` becomes a `ℚ` argument, `random.uniform(a, b)` becomes
`a + u * (b - a)` for a `ℚ` argument `u`, and `random.choice` over two
alternatives becomes a `Bool` argument.  Python's per-process string `hash`
is modelled by an arbitrary fixed function `h : String → ℤ` (within one
process the same string always hashes to the same value).  `math.sqrt`,
which has no exact rational counterpart, is modelled by a function
parameter `sq : ℚ → ℚ`; no verified property depends on its values.
-/

/-! ## Market model (`market.py`) -/

/-- The per-tick random draws consumed by `Market.updateMarket`:
the shock direction and magnitude draw used by `_trigger_event` should the
event fire this tick, and one `(buy?, uniform-draw)` pair per simulated
trade of the order-flow loop (`num_simulated_trades` is the list length). -/
structure TickOracle where
  shockPos : Bool
  shockU : ℚ
  trades : List (Bool × ℚ)
  deriving Repr, DecidableEq

/-- The mutable state of a `Market` instance that the verified claims
depend on: tick counter, scheduled event tick, the `event_triggered` flag,
the two supply reserves and the price history.  (The derived `volatility`
statistic and the Redis/bookkeeping fields do not feed back into any of
these and are omitted.) -/
structure MarketState where
  current_tick : ℕ
  event_tick : ℕ
  event_triggered : Bool
  dollar_supply : ℚ
  bc_supply : ℚ
  price_history : List ℚ
  deriving Repr, DecidableEq

/-- `Market._trigger_event`: a 15–25% supply shock
(`shock_factor = 0.15 + u * 0.1` models `random.uniform(0.15, 0.25)`),
positive events reduce the coin supply and raise the dollar supply by half
the magnitude, negative events do the inverse; both reserves are then
re-clamped to the 10,000 floor.  Returns `(dollar_supply, bc_supply)`. -/
def triggerEvent (isPos : Bool) (u : ℚ) (d b : ℚ) : ℚ × ℚ :=
  let f : ℚ := 15/100 + u * (25/100 - 15/100)
  if isPos then
    (max 10000 (d * (1 + f * (1/2))), max 10000 (b * (1 - f)))
  else
    (max 10000 (d * (1 - f * (1/2))), max 10000 (b * (1 + f)))

/-- One iteration of the simulated-trade loop in `Market.updateMarket`
(state is `(dollar_supply, bc_supply)`, the oracle entry is
`(buy?, uniform-draw)`): defensively reset non-positive supplies, quote
`price = dollar / bc`, draw a trade size in [0.3%, 1.5%] of the coin
supply, and commit the buy or sell only if both resulting reserves stay
at or above the 10,000 floor. -/
def simTrade (p : ℚ × ℚ) (t : Bool × ℚ) : ℚ × ℚ :=
  let b := if p.2 ≤ 0 then 10000 else p.2
  let d := if p.1 ≤ 0 then 10000 else p.1
  let price := d / b
  let minT := b * (3/1000)
  let maxT := b * (15/1000)
  let ts := minT + t.2 * (maxT - minT)
  if t.1 then
    let nb := b - ts
    let nd := d + price * ts
    if 10000 ≤ nb ∧ 10000 ≤ nd then (nd, nb) else (d, b)
  else
    let nb := b + ts
    let nd := d - price * ts
    if 10000 ≤ nb ∧ 10000 ≤ nd then (nd, nb) else (d, b)

/-- Whether the shock-trigger branch of `Market.updateMarket` runs on the
tick that takes `s` to its successor: the code first increments the tick
and then checks `not self.event_triggered and self.current_tick >= self.event_tick`. -/
def tickFires (s : MarketState) : Bool :=
  !s.event_triggered && decide (s.event_tick ≤ s.current_tick + 1)

/-- `Market.updateMarket`: increment the tick; maybe fire the shock event
(`_trigger_event`) and maybe auto-reset the `event_triggered` flag ten
ticks after the scheduled tick; clamp both reserves to the 10,000 floor;
run the simulated-trade loop; re-clamp; quote the new price
`max(0.10, dollar/bc)` and append it to the price history. -/
def updateMarket (o : TickOracle) (s : MarketState) : MarketState :=
  let tick := s.current_tick + 1
  let fires := tickFires s
  let db := if fires then triggerEvent o.shockPos o.shockU s.dollar_supply s.bc_supply
            else (s.dollar_supply, s.bc_supply)
  let trig1 := s.event_triggered || fires
  let trig2 := if trig1 && decide (s.event_tick + 10 ≤ tick) then false else trig1
  let b1 := max 10000 db.2
  let d1 := max 10000 db.1
  let db2 := o.trades.foldl simTrade (d1, b1)
  let b2 := max 10000 db2.2
  let d2 := max 10000 db2.1
  let price := max (1/10) (d2 / b2)
  { current_tick := tick
    event_tick := s.event_tick
    event_triggered := trig2
    dollar_supply := d2
    bc_supply := b2
    price_history := s.price_history ++ [price] }

/-- `Market.__init__`: tick 0, reserves 1,000,000 / 1,000,000, the event
scheduled at `et` (drawn by the constructor uniformly in 30–70% of the
session duration), flag clear, and the seed price as the whole history. -/
def initMarket (p0 : ℚ) (et : ℕ) : MarketState :=
  { current_tick := 0
    event_tick := et
    event_triggered := false
    dollar_supply := 1000000
    bc_supply := 1000000
    price_history := [p0] }

/-- A whole session: fold `updateMarket` over the per-tick oracles,
starting from the freshly constructed market. -/
def runMarket (p0 : ℚ) (et : ℕ) (os : List TickOracle) : MarketState :=
  os.foldl (fun s o => updateMarket o s) (initMarket p0 et)

/-- How many of the ticks described by `os` run the `_trigger_event`
branch, starting from state `s`. -/
def fireCount (s : MarketState) : List TickOracle → ℕ
  | [] => 0
  | o :: os => (if tickFires s then 1 else 0) + fireCount (updateMarket o s) os

/-- A tick with no simulated trades and fixed shock draws, used to drive
the model on concrete runs. -/
def quietTick : TickOracle := { shockPos := true, shockU := 0, trades := [] }

/-! ## Trade execution (`bot.py` `Bot.buy` / `Bot.sell`, `user.py`) -/

/-- A bot's wallet: current USD and BananaCoin balances. -/
structure BotW where
  usd : ℚ
  bc : ℚ
  deriving Repr, DecidableEq

/-- One entry of the game room's `players` list.  The Python code treats
every field as optional (`player.get(...)` / `'key' in player`), so each
is an `Option`. -/
structure Player where
  userId : Option String
  playerId : Option String
  coins : Option ℚ
  coinBalance : Option ℚ
  usd : Option ℚ
  usdBalance : Option ℚ
  deriving Repr, DecidableEq

/-- The game room data mutated by trades: the two pool totals plus the
optional `players` list. -/
structure GameData where
  totalBc : ℚ
  totalUsd : ℚ
  players : Option (List Player)
  deriving Repr, DecidableEq

/-- `player.get('userId') or player.get('playerId')` compared with the
owner id: Python `or` falls through on `None` and on the empty string. -/
def playerMatchId (p : Player) (uid : String) : Bool :=
  let pid := match p.userId with
    | some s => if s = "" then p.playerId else some s
    | none => p.playerId
  pid == some uid

/-- The owner-wallet mirroring inside `Bot.buy`: the first matching player
gains `amount` coins and loses `cost` USD, each field clamped at 0 and
only updated when present; the loop `break`s after the first match. -/
def updatePlayersBuy (uid : String) (amount cost : ℚ) : List Player → List Player
  | [] => []
  | p :: rest =>
    if playerMatchId p uid then
      { p with coins := p.coins.map (fun c => max 0 (c + amount))
               coinBalance := p.coinBalance.map (fun c => max 0 (c + amount))
               usd := p.usd.map (fun u => max 0 (u - cost))
               usdBalance := p.usdBalance.map (fun u => max 0 (u - cost)) } :: rest
    else p :: updatePlayersBuy uid amount cost rest

/-- The owner-wallet mirroring inside `Bot.sell` (coins down, USD up). -/
def updatePlayersSell (uid : String) (amount revenue : ℚ) : List Player → List Player
  | [] => []
  | p :: rest =>
    if playerMatchId p uid then
      { p with coins := p.coins.map (fun c => max 0 (c - amount))
               coinBalance := p.coinBalance.map (fun c => max 0 (c - amount))
               usd := p.usd.map (fun u => max 0 (u + revenue))
               usdBalance := p.usdBalance.map (fun u => max 0 (u + revenue)) } :: rest
    else p :: updatePlayersSell uid amount revenue rest

/-- The guard `if user_id and 'players' in game_data`: the owner id must be
present and truthy (non-empty) and the `players` key must exist. -/
def mirrorPlayers (user_id : Option String) (g : GameData)
    (upd : String → List Player → List Player) : Option (List Player) :=
  match user_id, g.players with
  | some uid, some ps => if uid = "" then some ps else some (upd uid ps)
  | _, _ => g.players

/-- `Bot.buy(amount, price, game_data, user_id)`: fail (returning the
inputs untouched) when `usd < amount * price`; otherwise debit USD and
credit BC on the bot wallet (clamped at 0), move `amount` coin out of and
`cost` currency into the game totals, and mirror the deltas onto the
owning player's wallet.  The transaction-history record is an external
fire-and-forget collaborator and does not affect the returned state.
Returns `(success, bot-wallet, game-data)`. -/
def botBuy (b : BotW) (amount price : ℚ) (g : GameData) (user_id : Option String) :
    Bool × BotW × GameData :=
  let cost := amount * price
  if b.usd < cost then (false, b, g)
  else
    let b' : BotW := { usd := max 0 (b.usd - cost), bc := max 0 (b.bc + amount) }
    let g' : GameData :=
      { totalBc := g.totalBc - amount
        totalUsd := g.totalUsd + cost
        players := mirrorPlayers user_id g (fun uid => updatePlayersBuy uid amount cost) }
    (true, b', g')

/-- `Bot.sell(amount, price, game_data, user_id)`: fail when
`bc < amount`; otherwise the exact inverse movement of `botBuy`. -/
def botSell (b : BotW) (amount price : ℚ) (g : GameData) (user_id : Option String) :
    Bool × BotW × GameData :=
  if b.bc < amount then (false, b, g)
  else
    let revenue := amount * price
    let b' : BotW := { bc := max 0 (b.bc - amount), usd := max 0 (b.usd + revenue) }
    let g' : GameData :=
      { totalBc := g.totalBc + amount
        totalUsd := g.totalUsd - revenue
        players := mirrorPlayers user_id g (fun uid => updatePlayersSell uid amount revenue) }
    (true, b', g')

/-- A user's wallet (`User.coins`, `User.usd`). -/
structure UserW where
  coins : ℚ
  usd : ℚ
  deriving Repr, DecidableEq

/-- `User.buy_bc(amount, price)`: fail when `usd < amount * price`,
otherwise debit USD and credit coins (no clamping in the user path). -/
def userBuyBC (u : UserW) (amount price : ℚ) : Bool × UserW :=
  if u.usd < amount * price then (false, u)
  else (true, { coins := u.coins + amount, usd := u.usd - amount * price })

/-- `User.sell_bc(amount, price)`: fail when `coins < amount`, otherwise
debit coins and credit USD. -/
def userSellBC (u : UserW) (amount price : ℚ) : Bool × UserW :=
  if u.coins < amount then (false, u)
  else (true, { coins := u.coins - amount, usd := u.usd + amount * price })

/-! ## Bot decision engine (`bot.py`) -/

/-- Python `int()` on a rational: truncation toward zero. -/
def pyInt (q : ℚ) : ℤ :=
  if q < 0 then -(⌊-q⌋) else ⌊q⌋

/-- The union of the per-type `Bot._get_default_parameters` dictionaries.
Each strategy reads only the keys present in its own dictionary; unread
keys default to 0. -/
structure Params where
  min_trade : ℚ := 0
  max_trade : ℚ := 0
  trade_probability : ℚ := 0
  short_window : ℚ := 0
  long_window : ℚ := 0
  trade_size : ℚ := 0
  aggressiveness : ℚ := 0
  lookback_window : ℚ := 0
  std_threshold : ℚ := 0
  target_bc_ratio : ℚ := 0
  rebalance_threshold : ℚ := 0
  volatility_threshold : ℚ := 0
  low_vol_ratio : ℚ := 0
  high_vol_ratio : ℚ := 0
  deriving Repr, DecidableEq

/-- `Bot._get_default_parameters`: the per-type defaults, falling back to
the `random` entry for unknown types (`defaults.get(bot_type, defaults['random'])`). -/
def defaultParams (bot_type : String) : Params :=
  if bot_type = "momentum" then
    { short_window := 5, long_window := 20, trade_size := 40, aggressiveness := 1 }
  else if bot_type = "mean_reversion" then
    { lookback_window := 20, std_threshold := 3/2, trade_size := 50 }
  else if bot_type = "market_maker" then
    { target_bc_ratio := 1/2, rebalance_threshold := 1/10, trade_size := 30 }
  else if bot_type = "hedger" then
    { volatility_threshold := 1/20, low_vol_ratio := 7/10, high_vol_ratio := 3/10,
      trade_size := 40 }
  else
    { min_trade := 2, max_trade := 60, trade_probability := 3/10 }

/-- The fields of a `Bot` instance consumed by the decision functions. -/
structure BotM where
  bot_id : String
  usd : ℚ
  bc : ℚ
  bot_type : String
  behavior_coefficient : ℚ
  parameters : Params
  custom_strategy_code : Option String
  deriving Repr, DecidableEq

/-- `Bot.__init__`'s behavior coefficient: the explicitly supplied value
when present, otherwise `0.8 + (hash(bot_id) % 40) / 100` derived from the
identifier through the process hash function `h` (Python `%` on a positive
modulus is the non-negative remainder, `%`). -/
def mkBehaviorCoefficient (h : String → ℤ) (bot_id : String) (given : Option ℚ) : ℚ :=
  match given with
  | some c => c
  | none => 8/10 + ((h bot_id % 40 : ℤ) : ℚ) / 100

/-- `Bot._scale_trade_amount`: on a buy, raise the proposed amount to at
least `0.2 * usd / price` worth of coin and cap it at the fully affordable
`usd / price`; on a sell, raise it to at least 20% of the held coin and
cap it at the full holding; other actions pass through.  The conditional
divisions mirror `x / current_price if current_price > 0 else 0`. -/
def scaleTradeAmount (usd bc : ℚ) (base_amount current_price : ℚ) (action : String) : ℚ :=
  if action = "buy" then
    let max_usd_to_use := usd * (2/10)
    let max_bc_from_usd := if 0 < current_price then max_usd_to_use / current_price else 0
    let scaled_amount := max base_amount max_bc_from_usd
    let max_affordable := if 0 < current_price then usd / current_price else 0
    min scaled_amount max_affordable
  else if action = "sell" then
    let max_bc_to_use := bc * (2/10)
    let scaled_amount := max base_amount max_bc_to_use
    min scaled_amount bc
  else base_amount

/-- The random draws consumed by one `Bot.analyze` call: the single
`random.random()` draw each strategy makes, plus the buy/sell choice and
the uniform size draw of the `random` strategy. -/
structure RandOracle where
  r : ℚ
  choice : Bool
  u : ℚ
  deriving Repr, DecidableEq

/-- A numeric-or-not Python value in the `amount` slot of a custom
strategy's result: `float()` either converts it or raises. -/
inductive PyVal where
  | num (q : ℚ)
  | nonNum
  deriving Repr, DecidableEq

/-- The abstracted outcome of running the stored custom-strategy code in
`Bot._analyze_custom` (dynamic `exec` of Python source cannot be embedded
directly; every way it can go is a constructor): the `exec` raises, the
code defines no `custom_strategy` function, the call raises, or it returns
a value — not a dict, a dict missing a required key, or a dict carrying an
action string and an amount value. -/
inductive CustomOutcome where
  | execRaises
  | fnMissing
  | callRaises
  | retNonDict
  | retMissingKeys
  | retDict (action : String) (amount : PyVal)
  deriving Repr, DecidableEq

/-- `Bot._analyze_custom`: hold when no code is registered (Python
falsiness covers `None` and the empty string); hold on every execution
failure and on every malformed result; otherwise clamp the amount into
[0, 1000] (negative amounts are first zeroed) and return the action.
The invalid-action check runs before the amount conversion, as in the
source. -/
def analyzeCustom (code : Option String) (oc : CustomOutcome) : String × ℚ :=
  match code with
  | none => ("hold", 0)
  | some c =>
    if c = "" then ("hold", 0)
    else
      match oc with
      | .execRaises => ("hold", 0)
      | .fnMissing => ("hold", 0)
      | .callRaises => ("hold", 0)
      | .retNonDict => ("hold", 0)
      | .retMissingKeys => ("hold", 0)
      | .retDict action v =>
        if action ≠ "buy" ∧ action ≠ "sell" ∧ action ≠ "hold" then ("hold", 0)
        else
          match v with
          | .nonNum => ("hold", 0)
          | .num q =>
            let amount := if q < 0 then 0 else q
            (action, min (max amount 0) 1000)

/-- `Bot._analyze_random`: hold unless the draw clears the
personality-scaled trade probability, otherwise a uniform amount between
the personality-scaled min and max trade sizes in the chosen direction. -/
def analyzeRandom (o : RandOracle) (b : BotM) : String × ℚ :=
  let bot_prob := b.parameters.trade_probability * b.behavior_coefficient
  if bot_prob < o.r then ("hold", 0)
  else
    let action := if o.choice then "buy" else "sell"
    let min_trade := b.parameters.min_trade * b.behavior_coefficient
    let max_trade := b.parameters.max_trade * b.behavior_coefficient
    let amount := min_trade + o.u * (max_trade - min_trade)
    (action, amount)

/-- `Bot._analyze_momentum`: personality-scaled short/long moving-average
windows, a hash-jittered threshold in [0.015, 0.025), a hash-jittered
amount, a 5% random hold, then buy when the short MA exceeds the long MA
by more than the threshold (sell in the symmetric case), the amount scaled
by `_scale_trade_amount`. -/
def analyzeMomentum (h : String → ℤ) (rnd : ℚ) (b : BotM) (coins : List ℚ)
    (current_price : ℚ) : String × ℚ :=
  if coins.length < 2 then ("hold", 0)
  else
    let short_window := max 3 (pyInt (b.parameters.short_window * b.behavior_coefficient)).toNat
    let long_window := max (short_window + 1)
      (pyInt (b.parameters.long_window * b.behavior_coefficient)).toNat
    let prices := if long_window ≤ coins.length then coins.drop (coins.length - long_window)
                  else coins
    if prices.length < short_window then ("hold", 0)
    else
      let short_prices := prices.drop (prices.length - short_window)
      let long_prices := if long_window ≤ prices.length then
          prices.drop (prices.length - long_window)
        else prices
      let short_ma := short_prices.sum / (short_prices.length : ℚ)
      let long_ma := long_prices.sum / (long_prices.length : ℚ)
      let threshold := 15/1000 + ((h b.bot_id % 10 : ℤ) : ℚ) / 1000
      let base_amount := b.parameters.trade_size * b.parameters.aggressiveness
      let amount := base_amount *
        (8/10 + ((h (b.bot_id ++ "amount") % 40 : ℤ) : ℚ) / 100)
      if rnd < 5/100 then ("hold", 0)
      else if long_ma * (1 + threshold) < short_ma then
        ("buy", scaleTradeAmount b.usd b.bc amount current_price "buy")
      else if short_ma < long_ma * (1 - threshold) then
        ("sell", scaleTradeAmount b.usd b.bc amount current_price "sell")
      else ("hold", 0)

/-- `Bot._analyze_mean_reversion`: z-score of the current price against a
hash-jittered lookback window's mean and population standard deviation
(`sq` models `math.sqrt`), a 3% random hold, sell above the jittered
threshold and buy below its negation. -/
def analyzeMeanReversion (h : String → ℤ) (sq : ℚ → ℚ) (rnd : ℚ) (b : BotM)
    (coins : List ℚ) (current_price : ℚ) : String × ℚ :=
  let lookback := max 5 (pyInt (b.parameters.lookback_window *
    (8/10 + ((h (b.bot_id ++ "lookback") % 40 : ℤ) : ℚ) / 100))).toNat
  let prices := if lookback ≤ coins.length then coins.drop (coins.length - lookback)
                else coins
  if prices.length < 2 then ("hold", 0)
  else
    let mean_price := prices.sum / (prices.length : ℚ)
    let variance := (prices.map (fun p => (p - mean_price) ^ 2)).sum / (prices.length : ℚ)
    let std_dev := if 0 < variance then sq variance else 0
    let z_score := if 0 < std_dev then (current_price - mean_price) / std_dev else 0
    let threshold := b.parameters.std_threshold *
      (8/10 + ((h (b.bot_id ++ "threshold") % 40 : ℤ) : ℚ) / 100)
    let amount := b.parameters.trade_size *
      (7/10 + ((h (b.bot_id ++ "amount") % 60 : ℤ) : ℚ) / 100)
    if rnd < 3/100 then ("hold", 0)
    else if threshold < z_score then
      ("sell", scaleTradeAmount b.usd b.bc amount current_price "sell")
    else if z_score < -threshold then
      ("buy", scaleTradeAmount b.usd b.bc amount current_price "buy")
    else ("hold", 0)

/-- `Bot._analyze_market_maker`: rebalance the coin-value fraction of the
portfolio toward a hash-jittered target ratio within a jittered band, with
a 5% random hold. -/
def analyzeMarketMaker (h : String → ℤ) (rnd : ℚ) (b : BotM)
    (current_price : ℚ) : String × ℚ :=
  let total_value := b.usd + b.bc * current_price
  if total_value = 0 then ("hold", 0)
  else
    let bc_value := b.bc * current_price
    let current_ratio := bc_value / total_value
    let target_ratio := b.parameters.target_bc_ratio *
      (8/10 + ((h (b.bot_id ++ "target") % 40 : ℤ) : ℚ) / 100)
    let threshold := b.parameters.rebalance_threshold *
      (8/10 + ((h (b.bot_id ++ "threshold") % 40 : ℤ) : ℚ) / 100)
    let amount := b.parameters.trade_size *
      (6/10 + ((h (b.bot_id ++ "size") % 80 : ℤ) : ℚ) / 100)
    if rnd < 5/100 then ("hold", 0)
    else if current_ratio < target_ratio - threshold then
      ("buy", scaleTradeAmount b.usd b.bc amount current_price "buy")
    else if target_ratio + threshold < current_ratio then
      ("sell", scaleTradeAmount b.usd b.bc amount current_price "sell")
    else ("hold", 0)

/-- The return-series comprehension in `Bot._analyze_hedger`:
`(p[i] - p[i-1]) / p[i-1]` over consecutive pairs, skipping pairs whose
earlier price is not positive. -/
def pairReturns : List ℚ → List ℚ
  | p0 :: p1 :: rest =>
    (if 0 < p0 then [(p1 - p0) / p0] else []) ++ pairReturns (p1 :: rest)
  | _ => []

/-- `Bot._analyze_hedger`: volatility (population standard deviation of
recent returns, `sq` models `math.sqrt`) selects a hash-jittered high- or
low-volatility target coin ratio; rebalance toward it within a jittered
band, with a 4% random hold. -/
def analyzeHedger (h : String → ℤ) (sq : ℚ → ℚ) (rnd : ℚ) (b : BotM)
    (coins : List ℚ) (current_price : ℚ) : String × ℚ :=
  if coins.length < 2 then ("hold", 0)
  else
    let vol_window := max 5 (pyInt (10 *
      (7/10 + ((h (b.bot_id ++ "window") % 60 : ℤ) : ℚ) / 100))).toNat
    let recent := if vol_window ≤ coins.length then coins.drop (coins.length - vol_window)
                  else coins
    let returns := pairReturns recent
    if returns = [] then ("hold", 0)
    else
      let mean_return := returns.sum / (returns.length : ℚ)
      let variance := (returns.map (fun r => (r - mean_return) ^ 2)).sum / (returns.length : ℚ)
      let volatility := if 0 < variance then sq variance else 0
      let total_value := b.usd + b.bc * current_price
      if total_value = 0 then ("hold", 0)
      else
        let current_ratio := b.bc * current_price / total_value
        let vol_threshold := b.parameters.volatility_threshold *
          (8/10 + ((h (b.bot_id ++ "vol_threshold") % 40 : ℤ) : ℚ) / 100)
        let target_ratio := if vol_threshold < volatility then
            b.parameters.high_vol_ratio *
              (8/10 + ((h (b.bot_id ++ "high_vol") % 40 : ℤ) : ℚ) / 100)
          else
            b.parameters.low_vol_ratio *
              (8/10 + ((h (b.bot_id ++ "low_vol") % 40 : ℤ) : ℚ) / 100)
        let rebalance_threshold := (1/10) *
          (8/10 + ((h (b.bot_id ++ "rebalance") % 40 : ℤ) : ℚ) / 100)
        let amount := b.parameters.trade_size *
          (7/10 + ((h (b.bot_id ++ "size") % 60 : ℤ) : ℚ) / 100)
        if rnd < 4/100 then ("hold", 0)
        else if current_ratio < target_ratio - rebalance_threshold then
          ("buy", scaleTradeAmount b.usd b.bc amount current_price "buy")
        else if target_ratio + rebalance_threshold < current_ratio then
          ("sell", scaleTradeAmount b.usd b.bc amount current_price "sell")
        else ("hold", 0)

/-- `Bot.analyze`: hold immediately on an empty price history; otherwise
default the current price to the last history entry and dispatch on the
bot type (unknown types hold). -/
def analyze (h : String → ℤ) (sq : ℚ → ℚ) (o : RandOracle) (oc : CustomOutcome)
    (b : BotM) (coins : List ℚ) (current_price : Option ℚ) : String × ℚ :=
  if coins.isEmpty then ("hold", 0)
  else
    let cp := current_price.getD (coins.getLastD 0)
    if b.bot_type = "random" then analyzeRandom o b
    else if b.bot_type = "momentum" then analyzeMomentum h o.r b coins cp
    else if b.bot_type = "mean_reversion" then analyzeMeanReversion h sq o.r b coins cp
    else if b.bot_type = "market_maker" then analyzeMarketMaker h o.r b cp
    else if b.bot_type = "hedger" then analyzeHedger h sq o.r b coins cp
    else if b.bot_type = "custom" then analyzeCustom b.custom_strategy_code oc
    else ("hold", 0)

/-- The outcomes `Bot._analyze_custom` classifies as failures: any way the
dynamic evaluation can go other than returning a well-formed dict — a
raise, a missing function, a non-dict or key-incomplete result, an action
outside buy/sell/hold, or a non-numeric amount. -/
def customMalformed : CustomOutcome → Prop
  | .retDict action v => (action ≠ "buy" ∧ action ≠ "sell" ∧ action ≠ "hold") ∨ v = PyVal.nonNum
  | _ => True

/-- The strictly increasing 20-price history 1, 2, …, 20 (short MA 18,
long MA 10.5, so short MA > long MA × 1.03). -/
def incCoins : List ℚ := [1,2,3,4,5,6,7,8,9,10,11,12,13,14,15,16,17,18,19,20]

/-- A momentum bot with default parameters, personality scalar 1 and
positive capital. -/
def momBot : BotM :=
  { bot_id := "m1", usd := 1000, bc := 0, bot_type := "momentum",
    behavior_coefficient := 1, parameters := defaultParams "momentum",
    custom_strategy_code := none }

/-! ## Auxiliary lemmas -/

/-- The last element (with default) of a nonempty list is an element. -/
theorem getLastD_mem_of_ne_nil (l : List ℚ) (d : ℚ) (hne : l ≠ []) : l.getLastD d ∈ l := by
  induction l with
  | nil => exact absurd rfl hne
  | cons a t ih =>
    cases t with
    | nil => simp [List.getLastD]
    | cons b t2 =>
      have hm := ih (List.cons_ne_nil b t2)
      rw [show (a :: b :: t2).getLastD d = (b :: t2).getLastD d from rfl]
      exact List.mem_cons_of_mem a hm

/-- Both reserves of any `updateMarket` output are at the 10,000 floor,
whatever the incoming state and random draws. -/
theorem updateMarket_reserve_floor (o : TickOracle) (s : MarketState) :
    10000 ≤ (updateMarket o s).dollar_supply ∧ 10000 ≤ (updateMarket o s).bc_supply := by
  constructor <;> exact le_max_left _ _

/-- Folding `updateMarket` over a nonempty oracle list lands on a state
with both reserves at the floor. -/
theorem foldl_updateMarket_reserve_floor (os : List TickOracle) (s : MarketState)
    (hne : os ≠ []) :
    10000 ≤ (os.foldl (fun t o => updateMarket o t) s).dollar_supply ∧
    10000 ≤ (os.foldl (fun t o => updateMarket o t) s).bc_supply := by
  induction os generalizing s with
  | nil => exact absurd rfl hne
  | cons o rest ih =>
    cases rest with
    | nil => simpa using updateMarket_reserve_floor o s
    | cons o2 r2 =>
      rw [List.foldl_cons]
      exact ih (updateMarket o s) (List.cons_ne_nil o2 r2)

/-- Each tick advances the counter by one and appends exactly one price. -/
theorem updateMarket_tick_append (o : TickOracle) (s : MarketState) :
    (updateMarket o s).current_tick = s.current_tick + 1 ∧
    ∃ q, (updateMarket o s).price_history = s.price_history ++ [q] :=
  ⟨rfl, ⟨_, rfl⟩⟩

/-- The `length = tick + 1` invariant is preserved by any run of ticks. -/
theorem foldl_updateMarket_history_length (os : List TickOracle) (s : MarketState)
    (h : s.price_history.length = s.current_tick + 1) :
    (os.foldl (fun t o => updateMarket o t) s).price_history.length =
      (os.foldl (fun t o => updateMarket o t) s).current_tick + 1 := by
  induction os generalizing s with
  | nil => exact h
  | cons o rest ih =>
    rw [List.foldl_cons]
    apply ih
    obtain ⟨ht, q, hq⟩ := updateMarket_tick_append o s
    rw [hq, ht, List.length_append, h, List.length_singleton]

/-! ## Claims -/

/-- Claim C1 (code bug evidence): the scheduled shock does NOT fire exactly
once.  With the event scheduled at tick 1, twelve `updateMarket` ticks
apply `_trigger_event` twice: once at tick 1, and again at tick 12, the
tick after the `event_triggered` flag auto-reset at tick 11 re-enables the
trigger condition (it keeps re-firing every tick thereafter). -/
theorem C1_shock_event_refires :
    fireCount (initMarket 1 1) (List.replicate 12 quietTick) = 2 := by decide

/-- Claim C2: for every wallet state, amount and price — each failure mode
on its own — a buy whose cost exceeds the bot's USD returns `false`
(whatever the coin balance), and a sell whose amount exceeds the bot's
coin returns `false` (whatever the currency balance); in both cases the
bot wallet, the game totals and the players list come back value-for-value
unchanged. -/
theorem C2_insolvent_trade_no_mutation (b : BotW) (a p : ℚ) (g : GameData)
    (uid : Option String) :
    (b.usd < a * p → botBuy b a p g uid = (false, b, g)) ∧
    (b.bc < a → botSell b a p g uid = (false, b, g)) := by
  constructor
  · intro hbuy; unfold botBuy; rw [if_pos hbuy]
  · intro hsell; unfold botSell; rw [if_pos hsell]

theorem C2_witness :
    ((100 : ℚ) < 1000 * 1 ∧ (5 : ℚ) < 10) ∧
    botBuy ⟨100, 1000⟩ 1000 1 ⟨5, 5, none⟩ none = (false, ⟨100, 1000⟩, ⟨5, 5, none⟩) ∧
    botSell ⟨1000, 5⟩ 10 1 ⟨5, 5, none⟩ none = (false, ⟨1000, 5⟩, ⟨5, 5, none⟩) :=
  ⟨⟨by norm_num, by norm_num⟩,
    (C2_insolvent_trade_no_mutation ⟨100, 1000⟩ 1000 1 ⟨5, 5, none⟩ none).1 (by norm_num),
    (C2_insolvent_trade_no_mutation ⟨1000, 5⟩ 10 1 ⟨5, 5, none⟩ none).2 (by norm_num)⟩

/-- A solvent `botBuy` in explicit form. -/
theorem botBuy_success (b : BotW) (a p : ℚ) (g : GameData) (uid : Option String)
    (h : ¬ b.usd < a * p) :
    botBuy b a p g uid =
      (true, ⟨max 0 (b.usd - a * p), max 0 (b.bc + a)⟩,
        ⟨g.totalBc - a, g.totalUsd + a * p,
          mirrorPlayers uid g (fun v => updatePlayersBuy v a (a * p))⟩) := by
  simp only [botBuy, if_neg h]

/-- A solvent `botSell` in explicit form. -/
theorem botSell_success (b : BotW) (a p : ℚ) (g : GameData) (uid : Option String)
    (h : ¬ b.bc < a) :
    botSell b a p g uid =
      (true, ⟨max 0 (b.usd + a * p), max 0 (b.bc - a)⟩,
        ⟨g.totalBc + a, g.totalUsd - a * p,
          mirrorPlayers uid g (fun v => updatePlayersSell v a (a * p))⟩) := by
  simp only [botSell, if_neg h]

/-- Claim C3: each conclusion under its own operation's solvency
condition — a buy by any wallet with currency ≥ a·p (whatever its coin
balance) debits exactly `a*p` USD and credits exactly `a` coin; a sell by
any wallet with coin ≥ a (whatever its currency balance) is the exact
inverse; buy-then-sell at the same price restores the wallet exactly; and
likewise on the user path (`User.buy_bc` / `User.sell_bc`).  The only
shared hypotheses are the wallet/trade sign invariants (non-negative
balances, amount and price). -/
theorem C3_trade_effects_roundtrip (b : BotW) (u : UserW) (a p : ℚ)
    (g : GameData) (uid : Option String)
    (ha : 0 ≤ a) (hp : 0 ≤ p) (hbusd : 0 ≤ b.usd) (hbbc : 0 ≤ b.bc)
    (hucoins : 0 ≤ u.coins) :
    (a * p ≤ b.usd →
      (botBuy b a p g uid).1 = true ∧
      (botBuy b a p g uid).2.1 = ⟨b.usd - a * p, b.bc + a⟩) ∧
    (a ≤ b.bc →
      (botSell b a p g uid).1 = true ∧
      (botSell b a p g uid).2.1 = ⟨b.usd + a * p, b.bc - a⟩) ∧
    (a * p ≤ b.usd →
      (botSell (botBuy b a p g uid).2.1 a p (botBuy b a p g uid).2.2 uid).2.1 = b) ∧
    (a * p ≤ u.usd →
      (userBuyBC u a p).1 = true ∧
      (userBuyBC u a p).2 = ⟨u.coins + a, u.usd - a * p⟩) ∧
    (a ≤ u.coins →
      (userSellBC u a p).1 = true ∧
      (userSellBC u a p).2 = ⟨u.coins - a, u.usd + a * p⟩) ∧
    (a * p ≤ u.usd →
      (userSellBC (userBuyBC u a p).2 a p).2 = u) := by
  have hap : 0 ≤ a * p := mul_nonneg ha hp
  refine ⟨?_, ?_, ?_, ?_, ?_, ?_⟩
  · intro hbuy
    have hbuyEq := botBuy_success b a p g uid (not_lt.mpr hbuy)
    rw [max_eq_right (by linarith : (0:ℚ) ≤ b.usd - a * p),
        max_eq_right (by linarith : (0:ℚ) ≤ b.bc + a)] at hbuyEq
    exact ⟨by rw [hbuyEq], by rw [hbuyEq]⟩
  · intro hsell
    have hsellEq := botSell_success b a p g uid (not_lt.mpr hsell)
    rw [max_eq_right (by linarith : (0:ℚ) ≤ b.usd + a * p),
        max_eq_right (by linarith : (0:ℚ) ≤ b.bc - a)] at hsellEq
    exact ⟨by rw [hsellEq], by rw [hsellEq]⟩
  · intro hbuy
    have hbuyEq := botBuy_success b a p g uid (not_lt.mpr hbuy)
    rw [max_eq_right (by linarith : (0:ℚ) ≤ b.usd - a * p),
        max_eq_right (by linarith : (0:ℚ) ≤ b.bc + a)] at hbuyEq
    rw [hbuyEq]
    rw [botSell_success _ a p _ uid (not_lt.mpr (by show (a:ℚ) ≤ b.bc + a; linarith))]
    show (⟨max 0 (b.usd - a * p + a * p), max 0 (b.bc + a - a)⟩ : BotW) = b
    rw [show b.usd - a * p + a * p = b.usd from by ring,
        show b.bc + a - a = b.bc from by ring,
        max_eq_right hbusd, max_eq_right hbbc]
  · intro hubuy
    have huserBuy : userBuyBC u a p = (true, ⟨u.coins + a, u.usd - a * p⟩) := by
      simp only [userBuyBC, if_neg (not_lt.mpr hubuy)]
    exact ⟨by rw [huserBuy], by rw [huserBuy]⟩
  · intro husell
    have huserSell : userSellBC u a p = (true, ⟨u.coins - a, u.usd + a * p⟩) := by
      simp only [userSellBC, if_neg (not_lt.mpr husell)]
    exact ⟨by rw [huserSell], by rw [huserSell]⟩
  · intro hubuy
    have huserBuy : userBuyBC u a p = (true, ⟨u.coins + a, u.usd - a * p⟩) := by
      simp only [userBuyBC, if_neg (not_lt.mpr hubuy)]
    rw [huserBuy]
    show (userSellBC ⟨u.coins + a, u.usd - a * p⟩ a p).2 = u
    simp only [userSellBC,
      if_neg (not_lt.mpr (by show (a:ℚ) ≤ u.coins + a; linarith) :
        ¬ (UserW.mk (u.coins + a) (u.usd - a * p)).coins < a)]
    show (⟨u.coins + a - a, u.usd - a * p + a * p⟩ : UserW) = u
    rw [show u.coins + a - a = u.coins from by ring,
        show u.usd - a * p + a * p = u.usd from by ring]

theorem C3_witness :
    ((0:ℚ) ≤ 2 ∧ (0:ℚ) ≤ 3 ∧ (0:ℚ) ≤ 100 ∧ (0:ℚ) ≤ 0 ∧ (0:ℚ) ≤ 20 ∧
      (2:ℚ) * 3 ≤ 100 ∧ (2:ℚ) ≤ 10 ∧ (2:ℚ) * 3 ≤ 50 ∧ (2:ℚ) ≤ 20) ∧
    ((botBuy ⟨100, 0⟩ 2 3 ⟨7, 7, none⟩ none).1 = true ∧
     (botBuy ⟨100, 0⟩ 2 3 ⟨7, 7, none⟩ none).2.1 = ⟨100 - 2 * 3, 0 + 2⟩) ∧
    ((botSell ⟨0, 10⟩ 2 3 ⟨7, 7, none⟩ none).1 = true ∧
     (botSell ⟨0, 10⟩ 2 3 ⟨7, 7, none⟩ none).2.1 = ⟨0 + 2 * 3, 10 - 2⟩) ∧
    (botSell (botBuy ⟨100, 0⟩ 2 3 ⟨7, 7, none⟩ none).2.1 2 3
       (botBuy ⟨100, 0⟩ 2 3 ⟨7, 7, none⟩ none).2.2 none).2.1 = ⟨100, 0⟩ ∧
    ((userBuyBC ⟨20, 50⟩ 2 3).1 = true ∧
     (userBuyBC ⟨20, 50⟩ 2 3).2 = ⟨20 + 2, 50 - 2 * 3⟩) ∧
    ((userSellBC ⟨20, 50⟩ 2 3).1 = true ∧
     (userSellBC ⟨20, 50⟩ 2 3).2 = ⟨20 - 2, 50 + 2 * 3⟩) ∧
    (userSellBC (userBuyBC ⟨20, 50⟩ 2 3).2 2 3).2 = ⟨20, 50⟩ := by
  have hbz := C3_trade_effects_roundtrip ⟨100, 0⟩ ⟨20, 50⟩ 2 3 ⟨7, 7, none⟩ none
    (by norm_num) (by norm_num) (by norm_num) (by norm_num) (by norm_num)
  have hcz := C3_trade_effects_roundtrip ⟨0, 10⟩ ⟨20, 50⟩ 2 3 ⟨7, 7, none⟩ none
    (by norm_num) (by norm_num) (by norm_num) (by norm_num) (by norm_num)
  exact ⟨⟨by norm_num, by norm_num, by norm_num, by norm_num, by norm_num,
      by norm_num, by norm_num, by norm_num, by norm_num⟩,
    hbz.1 (by norm_num), hcz.2.1 (by norm_num), hbz.2.2.1 (by norm_num),
    hbz.2.2.2.1 (by norm_num), hbz.2.2.2.2.1 (by norm_num), hbz.2.2.2.2.2 (by norm_num)⟩

/-- Claim C4: starting from the constructed market (reserves 1,000,000
each), after every tick of every run — whatever the shock and order-flow
draws — both reserves sit at or above the 10,000 floor. -/
theorem C4_reserves_at_floor (p0 : ℚ) (et : ℕ) (os : List TickOracle) (hne : os ≠ []) :
    10000 ≤ (runMarket p0 et os).dollar_supply ∧
    10000 ≤ (runMarket p0 et os).bc_supply :=
  foldl_updateMarket_reserve_floor os (initMarket p0 et) hne

theorem C4_witness :
    ([quietTick] ≠ ([] : List TickOracle)) ∧
    (10000 ≤ (runMarket 1 5 [quietTick]).dollar_supply ∧
     10000 ≤ (runMarket 1 5 [quietTick]).bc_supply) :=
  ⟨List.cons_ne_nil _ _, C4_reserves_at_floor 1 5 [quietTick] (List.cons_ne_nil _ _)⟩

/-- Claim C6: the price history always has exactly `current_tick + 1`
entries — the constructor seeds one price at tick 0, and every tick
increments the counter by one and appends exactly one price. -/
theorem C6_history_tracks_tick (p0 : ℚ) (et : ℕ) (os : List TickOracle) :
    (runMarket p0 et os).price_history.length = (runMarket p0 et os).current_tick + 1 ∧
    ∀ (o : TickOracle) (s : MarketState),
      (updateMarket o s).current_tick = s.current_tick + 1 ∧
      ∃ q, (updateMarket o s).price_history = s.price_history ++ [q] :=
  ⟨foldl_updateMarket_history_length os (initMarket p0 et) rfl,
   fun o s => updateMarket_tick_append o s⟩

/-- Claim C7: once a custom strategy is registered, every failing or
malformed evaluation outcome — a raise during `exec` or during the call, a
missing `custom_strategy` function, a non-dict result, missing keys, an
action outside buy/sell/hold, or a non-numeric amount — yields the
decision `("hold", 0)`; `analyzeCustom` is total, so the decision function
never propagates a raise. -/
theorem C7_custom_failure_holds (code : Option String) (oc : CustomOutcome)
    (hmal : customMalformed oc) :
    analyzeCustom code oc = ("hold", 0) := by
  cases code with
  | none => rfl
  | some c =>
    by_cases hc : c = ""
    · simp [analyzeCustom, hc]
    · cases oc with
      | execRaises => simp [analyzeCustom, hc]
      | fnMissing => simp [analyzeCustom, hc]
      | callRaises => simp [analyzeCustom, hc]
      | retNonDict => simp [analyzeCustom, hc]
      | retMissingKeys => simp [analyzeCustom, hc]
      | retDict action v =>
        rcases hmal with hact | hv
        · simp [analyzeCustom, hc, hact]
        · subst hv
          simp only [analyzeCustom, if_neg hc]
          split
          · rfl
          · rfl

theorem C7_witness :
    customMalformed CustomOutcome.execRaises ∧
    analyzeCustom (some "dummy code") CustomOutcome.execRaises = ("hold", 0) :=
  ⟨trivial, C7_custom_failure_holds (some "dummy code") CustomOutcome.execRaises trivial⟩

/-- Claim C9: with no explicit coefficient supplied, two constructions
from the same identifier (under the process's fixed string hash) derive
the identical personality scalar, and that scalar always lies in
[0.8, 1.2] (in fact in [0.8, 1.19]). -/
theorem C9_personality_deterministic_in_range (h : String → ℤ) (bot_id : String) :
    mkBehaviorCoefficient h bot_id none = mkBehaviorCoefficient h bot_id none ∧
    8/10 ≤ mkBehaviorCoefficient h bot_id none ∧
    mkBehaviorCoefficient h bot_id none ≤ 12/10 := by
  have h0 : (0 : ℤ) ≤ h bot_id % 40 := Int.emod_nonneg _ (by norm_num)
  have h40 : h bot_id % 40 < 40 := Int.emod_lt_of_pos _ (by norm_num)
  have hq0 : (0 : ℚ) ≤ ((h bot_id % 40 : ℤ) : ℚ) := by exact_mod_cast h0
  have hq39 : ((h bot_id % 40 : ℤ) : ℚ) ≤ 39 := by
    have : h bot_id % 40 ≤ 39 := by omega
    exact_mod_cast this
  refine ⟨rfl, ?_, ?_⟩ <;>
    · simp only [mkBehaviorCoefficient]
      linarith

/-- Claim C10: whatever the bot's strategy kind, parameters, wallet state,
hash values and random draws, `analyze` on an empty price history is an
immediate `("hold", 0)`. -/
theorem C10_empty_history_holds (h : String → ℤ) (sq : ℚ → ℚ) (o : RandOracle)
    (oc : CustomOutcome) (b : BotM) (cp : Option ℚ) :
    analyze h sq o oc b [] cp = ("hold", 0) := rfl

/-- Under the claim's side conditions (behavior coefficient 1, default
momentum parameters, a 20-price history), `_analyze_momentum` reduces to
its explicit decision form: short MA over the last 5 prices, long MA over
all 20, jittered threshold and amount, the 5% random hold, then the
signal comparison. -/
theorem analyzeMomentum_reduced (h : String → ℤ) (rnd : ℚ) (b : BotM)
    (coins : List ℚ) (cp : ℚ)
    (hpf : b.behavior_coefficient = 1)
    (hpar : b.parameters = defaultParams "momentum")
    (hlen : coins.length = 20) :
    analyzeMomentum h rnd b coins cp =
      (if rnd < 5/100 then ("hold", 0)
       else if (coins.sum / 20) * (1 + (15/1000 + ((h b.bot_id % 10 : ℤ) : ℚ) / 1000))
              < (coins.drop 15).sum / 5 then
         ("buy", scaleTradeAmount b.usd b.bc
           (40 * (8/10 + ((h (b.bot_id ++ "amount") % 40 : ℤ) : ℚ) / 100)) cp "buy")
       else if (coins.drop 15).sum / 5
              < (coins.sum / 20) * (1 - (15/1000 + ((h b.bot_id % 10 : ℤ) : ℚ) / 1000)) then
         ("sell", scaleTradeAmount b.usd b.bc
           (40 * (8/10 + ((h (b.bot_id ++ "amount") % 40 : ℤ) : ℚ) / 100)) cp "sell")
       else ("hold", 0)) := by
  have hp1 : b.parameters.short_window = 5 := by rw [hpar]; rfl
  have hp2 : b.parameters.long_window = 20 := by rw [hpar]; rfl
  have hp3 : b.parameters.trade_size = 40 := by rw [hpar]; rfl
  have hp4 : b.parameters.aggressiveness = 1 := by rw [hpar]; rfl
  have hw1 : max 3 (pyInt ((5:ℚ) * 1)).toNat = 5 := by
    have ht : (pyInt ((5:ℚ) * 1)).toNat = 5 := by
      have hv : pyInt ((5:ℚ) * 1) = 5 := by norm_num [pyInt]
      rw [hv]
      rfl
    rw [ht]
    exact max_eq_right (by norm_num)
  have hw2 : max (5 + 1) (pyInt ((20:ℚ) * 1)).toNat = 20 := by
    have ht : (pyInt ((20:ℚ) * 1)).toNat = 20 := by
      have hv : pyInt ((20:ℚ) * 1) = 20 := by norm_num [pyInt]
      rw [hv]
      rfl
    rw [ht]
    exact max_eq_right (by norm_num)
  simp only [analyzeMomentum, hp1, hp2, hp3, hp4, hpf, hw1, hw2, hlen]
  norm_num [List.length_drop, hlen]

/-- The buy branch of `_scale_trade_amount` in explicit form (positive
price). -/
theorem scaleTradeAmount_buy_eq (usd bc base price : ℚ) (hp : 0 < price) :
    scaleTradeAmount usd bc base price "buy"
      = min (max base (usd * (2/10) / price)) (usd / price) := by
  simp [scaleTradeAmount, hp]

/-- The sell branch of `_scale_trade_amount` in explicit form. -/
theorem scaleTradeAmount_sell_eq (usd bc base price : ℚ) :
    scaleTradeAmount usd bc base price "sell" = min (max base (bc * (2/10))) bc := by
  simp [scaleTradeAmount]

/-- Claim C5 (counterexample): `_scale_trade_amount` does NOT cap a buy at
~20% of the available currency.  With 100 USD, price 1 and a proposed base
of 40 (the momentum default), it returns 40 — a spend of 40% of the
balance, twice the claimed ~20% cap (20 USD). -/
theorem C5_counterexample :
    scaleTradeAmount 100 0 40 1 "buy" = 40 ∧
    ¬ scaleTradeAmount 100 0 40 1 "buy" * 1 ≤ 100 * (2/10) := by
  norm_num [scaleTradeAmount, min_def, max_def]

/-- Claim C5 (amended): the scaled buy amount never costs more than the
agent's FULL available currency (`min(·, usd/price)`; the 20% figure is
only the scale-up target, not a cap), and the scaled sell amount never
exceeds the coin held. -/
theorem C5_scale_caps (usd bc base price : ℚ) (hp : 0 < price) :
    scaleTradeAmount usd bc base price "buy" * price ≤ usd ∧
    scaleTradeAmount usd bc base price "sell" ≤ bc := by
  constructor
  · calc scaleTradeAmount usd bc base price "buy" * price
        ≤ (usd / price) * price := by
          rw [scaleTradeAmount_buy_eq usd bc base price hp]
          exact mul_le_mul_of_nonneg_right (min_le_right _ _) (le_of_lt hp)
      _ = usd := div_mul_cancel₀ usd (ne_of_gt hp)
  · rw [scaleTradeAmount_sell_eq]
    exact min_le_right _ _

theorem C5_witness :
    (0:ℚ) < 1 ∧
    (scaleTradeAmount 100 0 40 1 "buy" * 1 ≤ 100 ∧
     scaleTradeAmount 100 0 40 1 "sell" ≤ 0) :=
  ⟨by norm_num, C5_scale_caps 100 0 40 1 (by norm_num)⟩

/-- For a momentum bot fed a nonempty history and no explicit current
price, `Bot.analyze` dispatches to `_analyze_momentum` with the last
history price. -/
theorem analyze_momentum_dispatch (h : String → ℤ) (sq : ℚ → ℚ) (o : RandOracle)
    (oc : CustomOutcome) (b : BotM) (coins : List ℚ)
    (hbt : b.bot_type = "momentum") (hne : coins ≠ []) :
    analyze h sq o oc b coins none = analyzeMomentum h o.r b coins (coins.getLastD 0) := by
  simp [analyze, hbt, hne]

/-- Claim C8 (counterexample): the input satisfies the claim's premises —
a strictly increasing 20-price history whose short MA exceeds the long MA
× 1.03, a momentum bot with default parameters and personality scalar 1 —
yet when the strategy's 5% random-hold draw fires (draw 0 < 0.05) the
decision is `("hold", 0)`, not a buy. -/
theorem C8_counterexample :
    List.Chain' (· < ·) incCoins ∧
    (103/100 : ℚ) * (incCoins.sum / 20) < (incCoins.drop 15).sum / 5 ∧
    analyze (fun _ => 0) (fun _ => 0) ⟨0, true, 0⟩ CustomOutcome.execRaises momBot
      incCoins none = ("hold", 0) := by
  refine ⟨?_, ?_, ?_⟩
  · norm_num [incCoins, List.chain'_cons]
  · norm_num [incCoins]
  · rw [analyze_momentum_dispatch (fun _ => 0) (fun _ => 0) ⟨0, true, 0⟩
        CustomOutcome.execRaises momBot incCoins rfl (by decide)]
    rw [analyzeMomentum_reduced (fun _ => 0) ((⟨0, true, 0⟩ : RandOracle).r) momBot incCoins
        (incCoins.getLastD 0) rfl rfl (show incCoins.length = 20 from rfl)]
    norm_num

/-- Claim C8 (amended): under the claim's premises and additionally
(i) the 5% random-hold draw does not fire, (ii) the agent's currency
balance is positive, and (iii) the history's prices are positive, the
momentum agent returns action "buy" with amount > 0. -/
theorem C8_momentum_buy_signal (h : String → ℤ) (sq : ℚ → ℚ) (o : RandOracle)
    (oc : CustomOutcome) (b : BotM) (coins : List ℚ)
    (hbt : b.bot_type = "momentum")
    (hpf : b.behavior_coefficient = 1)
    (hpar : b.parameters = defaultParams "momentum")
    (hlen : coins.length = 20)
    (_hmono : List.Chain' (· < ·) coins)
    (hpos : ∀ q ∈ coins, 0 < q)
    (hma : (103/100 : ℚ) * (coins.sum / 20) < (coins.drop 15).sum / 5)
    (hrnd : 5/100 ≤ o.r)
    (husd : 0 < b.usd) :
    (analyze h sq o oc b coins none).1 = "buy" ∧
    0 < (analyze h sq o oc b coins none).2 := by
  have hne : coins ≠ [] := List.ne_nil_of_length_pos (by rw [hlen]; norm_num)
  have hcp : 0 < coins.getLastD 0 := hpos _ (getLastD_mem_of_ne_nil coins 0 hne)
  rw [analyze_momentum_dispatch h sq o oc b coins hbt hne,
      analyzeMomentum_reduced h o.r b coins (coins.getLastD 0) hpf hpar hlen]
  rw [if_neg (not_lt.mpr hrnd)]
  have he1a : (0 : ℤ) ≤ h b.bot_id % 10 := Int.emod_nonneg _ (by norm_num)
  have he1b : h b.bot_id % 10 ≤ 9 := by
    have := Int.emod_lt_of_pos (h b.bot_id) (show (0:ℤ) < 10 by norm_num)
    omega
  have hq1a : (0 : ℚ) ≤ ((h b.bot_id % 10 : ℤ) : ℚ) := by exact_mod_cast he1a
  have hq1b : ((h b.bot_id % 10 : ℤ) : ℚ) ≤ 9 := by exact_mod_cast he1b
  have hsum : 0 < coins.sum := List.sum_pos coins hpos hne
  have hlm : 0 < coins.sum / 20 := by positivity
  have hcond : coins.sum / 20 *
      (1 + (15/1000 + ((h b.bot_id % 10 : ℤ) : ℚ) / 1000)) < (coins.drop 15).sum / 5 := by
    have hth : 1 + (15/1000 + ((h b.bot_id % 10 : ℤ) : ℚ) / 1000) ≤ 103/100 := by
      linarith
    have := mul_le_mul_of_nonneg_left hth (le_of_lt hlm)
    nlinarith [hma]
  rw [if_pos hcond]
  refine ⟨rfl, ?_⟩
  have he2a : (0 : ℤ) ≤ h (b.bot_id ++ "amount") % 40 := Int.emod_nonneg _ (by norm_num)
  have hq2a : (0 : ℚ) ≤ ((h (b.bot_id ++ "amount") % 40 : ℤ) : ℚ) := by exact_mod_cast he2a
  have hbase : 0 < 40 * (8/10 + ((h (b.bot_id ++ "amount") % 40 : ℤ) : ℚ) / 100) := by
    nlinarith
  show 0 < scaleTradeAmount b.usd b.bc
      (40 * (8/10 + ((h (b.bot_id ++ "amount") % 40 : ℤ) : ℚ) / 100))
      (coins.getLastD 0) "buy"
  rw [scaleTradeAmount_buy_eq _ _ _ _ hcp]
  exact lt_min (lt_of_lt_of_le hbase (le_max_left _ _)) (div_pos husd hcp)

theorem C8_witness :
    ((5/100 : ℚ) ≤ 1/2 ∧ (0:ℚ) < 1000) ∧
    (analyze (fun _ => 0) (fun _ => 0) ⟨1/2, true, 0⟩ CustomOutcome.execRaises momBot
        incCoins none).1 = "buy" ∧
    0 < (analyze (fun _ => 0) (fun _ => 0) ⟨1/2, true, 0⟩ CustomOutcome.execRaises momBot
        incCoins none).2 :=
  ⟨⟨by norm_num, by norm_num⟩,
   C8_momentum_buy_signal (fun _ => 0) (fun _ => 0) ⟨1/2, true, 0⟩ CustomOutcome.execRaises
     momBot incCoins rfl rfl rfl rfl
     (by norm_num [incCoins, List.chain'_cons])
     (by decide)
     (by norm_num [incCoins])
     (by norm_num)
     (by norm_num [momBot])⟩
